import Mathlib

/-!
A verification development for the `ki` synchronizer (`ki/__init__.py`):
a shallow embedding in Lean 4 of the note-identity, diffing, file-naming,
hash-log and write-back logic of the program, together with theorems
settling the specification claims about those functions.

Machine integers are modelled as `Nat` with explicit `% 2^w` where overflow
matters; Python strings are Lean `String`s (both are sequences of unicode
code points); fallible code returns `Except`/`Option`; filesystem state is
passed explicitly.
-/

/-! ### Generic string helpers (Python `startswith`, `in`, slicing) -/

/-- List prefix test, written out so that it evaluates by kernel reduction. -/
def listPref [DecidableEq α] : List α → List α → Bool
  | [], _ => true
  | _ :: _, [] => false
  | a :: as, b :: bs => decide (a = b) && listPref as bs

/-- List infix (contiguous sublist) test: Python's `sub in s` on strings. -/
def listSub [DecidableEq α] : List α → List α → Bool
  | p, [] => listPref p []
  | p, b :: bs => listPref p (b :: bs) || listSub p bs

/-- Python `p + "..." == s[:len p]`-style check: `s.startswith(p)`,
also `re.match("^p", s)` for a literal pattern `p`. -/
def strPref (p s : String) : Bool := listPref p.toList s.toList

/-- Python's substring containment operator `sub in s`. -/
def subStr (sub s : String) : Bool := listSub sub.toList s.toList

/-- Python string slicing `s[:n]` (counts code points, like Lean `Char`s). -/
def takeChars (n : Nat) (s : String) : String := String.mk (s.toList.take n)

/-! ### Note files and `is_anki_note`

A markdown file is modelled by its final path component and the list of
lines returned by Python's `readlines()` (each line keeps its trailing
newline, except possibly the last). -/

structure MdFile where
  name : String
  lines : List String
deriving DecidableEq, Repr

/-- `pathlib.PurePath.suffix`: the extension of the final component.
Empty unless the last `.` is neither the first nor the last character. -/
def pathSuffix (nm : String) : String :=
  let cs := nm.toList
  match (List.range cs.length).filter (fun i => cs.getD i ' ' = '.') |>.getLast? with
  | none => ""
  | some i => if 0 < i ∧ i < cs.length - 1 then String.mk (cs.drop i) else ""

/-- `is_anki_note` (ki/__init__.py lines 249-265): a file is a ki note iff
it has suffix `.md`, at least 8 lines, line 0 is `# Note`, line 1 is a
fence, and line 2 matches `^guid: `.  (The source checks nothing else.) -/
def is_anki_note (f : MdFile) : Bool :=
  if pathSuffix f.name ≠ ".md" then false
  else if f.lines.length < 8 then false
  else if f.lines.getD 0 "" ≠ "# Note\n" then false
  else if f.lines.getD 1 "" ≠ "```\n" then false
  else if ¬ strPref "guid: " (f.lines.getD 2 "") then false
  else true

/-- The claim's reading of the note-file header check: the full fixed
8-line header of the spec's note grammar (`# Note`, fence, `guid: `,
`notetype: `, fence, blank, `### Tags`, fence). -/
def fullHeaderCheck (f : MdFile) : Bool :=
  pathSuffix f.name = ".md"
  && decide (8 ≤ f.lines.length)
  && decide (f.lines.getD 0 "" = "# Note\n")
  && decide (f.lines.getD 1 "" = "```\n")
  && strPref "guid: " (f.lines.getD 2 "")
  && strPref "notetype: " (f.lines.getD 3 "")
  && decide (f.lines.getD 4 "" = "```\n")
  && decide (f.lines.getD 5 "" = "\n")
  && decide (f.lines.getD 6 "" = "### Tags\n")
  && decide (f.lines.getD 7 "" = "```\n")

/-- The header check that `is_anki_note` actually performs, stated in the
spec's vocabulary: `.md` suffix, at least 8 lines, and the first three
header lines (`# Note`, opening fence, `guid: ` line). -/
def firstThreeHeaderCheck (f : MdFile) : Bool :=
  pathSuffix f.name = ".md"
  && decide (8 ≤ f.lines.length)
  && decide (f.lines.getD 0 "" = "# Note\n")
  && decide (f.lines.getD 1 "" = "```\n")
  && strPref "guid: " (f.lines.getD 2 "")

/-! ### GUID generation: SHA-256, base91, `get_guid`, `parse_note`

`get_guid` (ki/__init__.py lines 373-386) hashes the `"__"`-joined field
values with SHA-256, takes the first 8 bytes of the digest as a big-endian
integer, and writes that integer in Anki's base-91 alphabet.  SHA-256 is
embedded below from FIPS 180-4, over `Nat` with explicit reduction
modulo `2^32`. -/

/-- UTF-8 encoding of one code point (Python's `str.encode("utf-8")`). -/
def utf8Char (c : Char) : List Nat :=
  let n := c.toNat
  if n < 128 then [n]
  else if n < 2048 then [192 + n / 64, 128 + n % 64]
  else if n < 65536 then [224 + n / 4096, 128 + (n / 64) % 64, 128 + n % 64]
  else [240 + n / 262144, 128 + (n / 4096) % 64, 128 + (n / 64) % 64, 128 + n % 64]

/-- UTF-8 encoding of a string as a byte list. -/
def utf8Bytes (s : String) : List Nat := s.toList.flatMap utf8Char

/-- Truncate to a 32-bit word. -/
def w32 (x : Nat) : Nat := x % 4294967296

/-- 32-bit right rotation. -/
def rotr (n x : Nat) : Nat := w32 ((x >>> n) ||| (x <<< (32 - n)))

def bsig0 (x : Nat) : Nat := rotr 2 x ^^^ rotr 13 x ^^^ rotr 22 x

def bsig1 (x : Nat) : Nat := rotr 6 x ^^^ rotr 11 x ^^^ rotr 25 x

def ssig0 (x : Nat) : Nat := rotr 7 x ^^^ rotr 18 x ^^^ (x >>> 3)

def ssig1 (x : Nat) : Nat := rotr 17 x ^^^ rotr 19 x ^^^ (x >>> 10)

def chF (x y z : Nat) : Nat := (x &&& y) ^^^ ((x ^^^ 4294967295) &&& z)

def majF (x y z : Nat) : Nat := (x &&& y) ^^^ (x &&& z) ^^^ (y &&& z)

/-- The 64 SHA-256 round constants (FIPS 180-4 section 4.2.2). -/
def shaK : List Nat :=
  [1116352408, 1899447441, 3049323471, 3921009573, 961987163,
   1508970993, 2453635748, 2870763221, 3624381080, 310598401,
   607225278, 1426881987, 1925078388, 2162078206, 2614888103,
   3248222580, 3835390401, 4022224774, 264347078, 604807628,
   770255983, 1249150122, 1555081692, 1996064986, 2554220882,
   2821834349, 2952996808, 3210313671, 3336571891, 3584528711,
   113926993, 338241895, 666307205, 773529912, 1294757372,
   1396182291, 1695183700, 1986661051, 2177026350, 2456956037,
   2730485921, 2820302411, 3259730800, 3345764771, 3516065817,
   3600352804, 4094571909, 275423344, 430227734, 506948616,
   659060556, 883997877, 958139571, 1322822218, 1537002063,
   1747873779, 1955562222, 2024104815, 2227730452, 2361852424,
   2428436474, 2756734187, 3204031479, 3329325298]

/-- SHA-256 initial hash value (FIPS 180-4 section 5.3.3). -/
def shaH0 : List Nat :=
  [1779033703, 3144134277, 1013904242, 2773480762,
   1359893119, 2600822924, 528734635, 1541459225]

/-- Big-endian byte expansion of `x` to `n` bytes. -/
def beBytes : Nat → Nat → List Nat
  | 0, _ => []
  | n + 1, x => beBytes n (x / 256) ++ [x % 256]

/-- SHA-256 padding: append `0x80`, zeros, and the 8-byte big-endian bit
length, so the total length is a multiple of 64 bytes. -/
def padMsg (m : List Nat) : List Nat :=
  let L := m.length
  let k := (64 - (L + 9) % 64) % 64
  m ++ [128] ++ List.replicate k 0 ++ beBytes 8 (8 * L)

/-- Split a list into chunks of `n` elements (fueled for kernel reduction;
`fuel ≥ l.length` suffices). -/
def chunksOf (n : Nat) : Nat → List α → List (List α)
  | 0, _ => []
  | _, [] => []
  | fuel + 1, l => l.take n :: chunksOf n fuel (l.drop n)

/-- A big-endian 32-bit word from 4 bytes, as the source's
`reduce(lambda h, b: (h << 8) + b, bytes, 0)` computes it. -/
def beWord (bs : List Nat) : Nat := bs.foldl (fun h b => (h <<< 8) + b) 0

/-- Extend the 16 message-schedule words to 64 (iterated `n` more times). -/
def extendSchedule : Nat → List Nat → List Nat
  | 0, ws => ws
  | n + 1, ws =>
      let i := ws.length
      let nw := w32 (ws.getD (i - 16) 0 + ssig0 (ws.getD (i - 15) 0)
        + ws.getD (i - 7) 0 + ssig1 (ws.getD (i - 2) 0))
      extendSchedule n (ws ++ [nw])

/-- The eight SHA-256 working variables. -/
structure Hash8 where
  a : Nat
  b : Nat
  c : Nat
  d : Nat
  e : Nat
  f : Nat
  g : Nat
  h : Nat
deriving DecidableEq, Repr

/-- One SHA-256 compression round for round constant `k` and word `w`. -/
def shaRound (st : Hash8) (kw : Nat × Nat) : Hash8 :=
  let t1 := w32 (st.h + bsig1 st.e + chF st.e st.f st.g + kw.1 + kw.2)
  let t2 := w32 (bsig0 st.a + majF st.a st.b st.c)
  { a := w32 (t1 + t2), b := st.a, c := st.b, d := st.c,
    e := w32 (st.d + t1), f := st.e, g := st.f, h := st.g }

/-- Compress one 64-byte block into the running hash. -/
def compressBlock (hv : List Nat) (block : List Nat) : List Nat :=
  let ws := extendSchedule 48 ((chunksOf 4 64 block).map beWord)
  let st0 : Hash8 :=
    { a := hv.getD 0 0, b := hv.getD 1 0, c := hv.getD 2 0, d := hv.getD 3 0,
      e := hv.getD 4 0, f := hv.getD 5 0, g := hv.getD 6 0, h := hv.getD 7 0 }
  let st := (shaK.zip ws).foldl shaRound st0
  [w32 (hv.getD 0 0 + st.a), w32 (hv.getD 1 0 + st.b),
   w32 (hv.getD 2 0 + st.c), w32 (hv.getD 3 0 + st.d),
   w32 (hv.getD 4 0 + st.e), w32 (hv.getD 5 0 + st.f),
   w32 (hv.getD 6 0 + st.g), w32 (hv.getD 7 0 + st.h)]

/-- SHA-256 digest (32 bytes) of a byte string (FIPS 180-4). -/
def sha256 (m : List Nat) : List Nat :=
  let p := padMsg m
  let hv := (chunksOf 64 p.length p).foldl compressBlock shaH0
  hv.flatMap (beBytes 4)

/-- The base-91 alphabet from the source: ASCII alphanumerics followed by
Anki's symbol set (`BASE91_TABLE`, ki/__init__.py lines 162-164). -/
def BASE91_TABLE : List Char :=
  ("abcdefghijklmnopqrstuvwxyzABCDEFGHIJKLMNOPQRSTUVWXYZ0123456789"
    ++ "!#$%&()*+,-./:;<=>?@[]^_`\x7b|\x7d~").toList

/-- The `while x > 0` loop of `get_guid`, which appends `table[x % 91]` and
divides `x` by 91 until `x = 0`, building the digit characters
least-significant first.  Fueled for kernel reduction; `fuel = 64`
suffices because `x < 2^64` (it comes from 8 digest bytes). -/
def guidLoop : Nat → Nat → List Char → List Char
  | 0, _, chars => chars
  | fuel + 1, x, chars =>
    if x > 0 then
      guidLoop fuel (x / BASE91_TABLE.length)
        (chars ++ [BASE91_TABLE.getD (x % BASE91_TABLE.length) ' '])
    else chars

/-- `get_guid` (ki/__init__.py lines 373-386): join the field values with
`"__"`, hash with SHA-256, fold the first 8 digest bytes into an integer
with `(h << 8) + b`, and write that integer in base 91, reversing the
accumulated character list. -/
def get_guid (fields : List String) : String :=
  let digest := sha256 (utf8Bytes (String.intercalate "__" fields))
  let x := (digest.take 8).foldl (fun h b => (h <<< 8) + b) 0
  String.mk (guidLoop 64 x []).reverse

/-- The output of the external note-file parser (`ki.transformer.FlatNote`):
title, guid, model name, tags, and the ordered field map. -/
structure FlatNote where
  title : String
  guid : String
  model : String
  tags : List String
  fields : List (String × String)
deriving DecidableEq, Repr

/-- A parsed note destined for the collection (`ki.types.DeckNote`). -/
structure DeckNote where
  title : String
  guid : String
  deck : String
  model : String
  tags : List String
  fields : List (String × String)
deriving DecidableEq, Repr

/-- `parse_note` (ki/__init__.py lines 389-410), after the external Lark
parser has produced a `FlatNote`: the deck is the `::`-join of the parent
directory parts of the delta's relative path, and a blank `guid:` header
is replaced by `get_guid` of the field values. -/
def parse_note (flatnote : FlatNote) (parentParts : List String) : DeckNote :=
  let deck := String.intercalate "::" parentParts
  let fields := flatnote.fields.map (fun kv => kv.2)
  let guid := if flatnote.guid ≠ "" then flatnote.guid else get_guid fields
  { title := flatnote.title, guid := guid, deck := deck,
    model := flatnote.model, tags := flatnote.tags, fields := flatnote.fields }

/-! Spec-side definitions for claim C1, written from the specification's
words rather than from the source, to be compared with `get_guid`. -/

/-- The big-endian integer formed from a byte list: the head is the most
significant byte.  (Spec side; written with `foldr` so its shape differs
from the source's left fold.) -/
def beNumSpec : List Nat → Nat
  | [] => 0
  | b :: bs => b * 256 ^ bs.length + beNumSpec bs

/-- The little-endian base-`b` digits of `x`, fueled (spec side). -/
def baseDigits (b : Nat) : Nat → Nat → List Nat
  | 0, _ => []
  | fuel + 1, x => if x = 0 then [] else x % b :: baseDigits b fuel (x / b)

/-- The base-91 encoding of an integer over the 91-character table:
most-significant digit first (spec side). -/
def base91Spec (x : Nat) : String :=
  String.mk (((baseDigits 91 64 x).reverse).map (fun d => BASE91_TABLE.getD d ' '))

/-- The GUID the claim asserts: base91 of the integer formed from the
first 8 bytes of the SHA-256 digest of the field values joined by the
separator `\x1f`. -/
def guidSpecClaimed (fields : List String) : String :=
  base91Spec (beNumSpec ((sha256 (utf8Bytes (String.intercalate "\x1F" fields))).take 8))

/-- The GUID the source actually computes, in the spec's vocabulary but
with the separator the code uses (`"__"`). -/
def guidSpecAmended (fields : List String) : String :=
  base91Spec (beNumSpec ((sha256 (utf8Bytes (String.intercalate "__" fields))).take 8))

/-! ### Diff munging: `is_ignorable` and `mungediff`

A repository snapshot side (`a_root` or `b_root`) is modelled as a map
from relative paths to the regular file found there, if any (`F.chk`
returning a `File`).  A relative path is its list of components. -/

inductive GitChangeType where
  | ADDED
  | DELETED
  | MODIFIED
  | RENAMED
  | TYPECHANGED
deriving DecidableEq, Repr

structure RelPath where
  parts : List String
deriving DecidableEq, Repr

/-- `pathlib.PurePath.name`: the final component. -/
def RelPath.name (p : RelPath) : String := (p.parts.getLast?).getD ""

/-- `IGNORE_FILES` (ki/__init__.py line 147). -/
def IGNORE_FILES : List String := [".gitignore", ".gitmodules", "models.json"]

/-- `IGNORE_DIRS` (ki/__init__.py line 146). -/
def IGNORE_DIRS : List String := [".git", ".ki", "_media"]

/-- A snapshot root: which regular file, if any, sits at each relative path. -/
def FsSide : Type := RelPath → Option MdFile

/-- `is_ignorable` (ki/__init__.py lines 268-292): true when the path's name
is one of the ignored file/dir names, or any component is an ignored
directory, or an extant regular file at the path is not an Anki note. -/
def is_ignorable (root : FsSide) (p : RelPath) : Bool :=
  if p.name ∈ IGNORE_FILES ++ IGNORE_DIRS || p.parts.any (fun c => c ∈ IGNORE_DIRS) then
    true
  else
    match root p with
    | some f => ¬ is_anki_note f
    | none => false

/-- `ki.types.Delta`: a change type, the file it refers to, and its
relative path. -/
structure Delta where
  status : GitChangeType
  file : MdFile
  relpath : RelPath
deriving DecidableEq, Repr

inductive DiffWarning where
  | deletedFileNotFound (p : RelPath)
  | diffTargetFileNotFound (p : RelPath)
deriving DecidableEq, Repr

/-- One entry of a `git diff`, as `mungediff` consumes it. -/
structure GitDiffEntry where
  change_type : GitChangeType
  a_path : Option RelPath
  b_path : Option RelPath
deriving Repr

/-- `mungediff` (ki/__init__.py lines 295-323).  `parse` abstracts the
curried `parse_note` partial application, acting on the parsed file.
The two unreachable `[]` branches correspond to places where the source
would raise (both diff paths absent, or a RENAMED entry whose A-side file
vanished from the A snapshot, making `parse` crash on a missing file). -/
def mungediff (parse : MdFile → DeckNote) (a_root b_root : FsSide)
    (d : GitDiffEntry) : List (Delta ⊕ DiffWarning) :=
  match (if d.a_path.isSome then d.a_path else d.b_path),
        (if d.b_path.isSome then d.b_path else d.a_path) with
  | some a, some b =>
    if is_ignorable a_root a || is_ignorable b_root b then []
    else if d.change_type = .DELETED then
      match a_root a with
      | none => [.inr (.deletedFileNotFound a)]
      | some fa => [.inl ⟨.DELETED, fa, a⟩]
    else
      match b_root b with
      | none => [.inr (.diffTargetFileNotFound b)]
      | some fb =>
        if d.change_type = .RENAMED then
          match a_root a with
          | none => []
          | some fa =>
            if (parse fa).guid ≠ (parse fb).guid then
              [.inl ⟨.DELETED, fa, a⟩, .inl ⟨.ADDED, fb, b⟩]
            else
              [.inl ⟨.RENAMED, fb, b⟩]
        else
          [.inl ⟨d.change_type, fb, b⟩]
  | _, _ => []

/-! ### Note file naming: `get_note_path`

The deck directory's contents are modelled as the list `ex` of filenames
that already exist there: `F.chk` yields `NoFile` for a candidate exactly
when its name is not in `ex`. -/

/-- Decimal digit character: `chr(48 + d)`. -/
def decChar (d : Nat) : Char := Char.ofNat (48 + d)

/-- Little-endian decimal digits, fueled for kernel reduction
(`fuel ≥ n` suffices). -/
def decDigitsAux : Nat → Nat → List Nat
  | 0, _ => []
  | fuel + 1, n => if n = 0 then [] else n % 10 :: decDigitsAux fuel (n / 10)

/-- Python `str(i)` for a natural number: decimal, no leading zeros. -/
def natStr (n : Nat) : String :=
  if n = 0 then "0" else String.mk ((decDigitsAux n n).reverse.map decChar)

/-- Decode a little-endian decimal digit list (used to prove `natStr`
injective). -/
def ofDigits10 : List Nat → Nat
  | [] => 0
  | d :: ds => d + 10 * ofDigits10 ds

/-- The candidate filename `f"{slug}_{i}{MD}"` tried at suffix index `i`. -/
def mkName (slug : String) (i : Nat) : String := slug ++ "_" ++ natStr i ++ ".md"

/-- The `while not isinstance(note_path, NoFile)` loop of `get_note_path`
(lines 568-572), fueled: try `slug_i.md` for `i = start, start+1, ...`,
returning the first name not already present.  `get_note_path` passes
fuel `ex.length + 1`, which the C9 theorem shows always suffices. -/
def noteLoop (ex : List String) (slug : String) : Nat → Nat → String
  | 0, i => mkName slug i
  | fuel + 1, i =>
    if mkName slug i ∈ ex then noteLoop ex slug fuel (i + 1) else mkName slug i

/-- The inputs of `get_note_path` taken from a `ColNote`: the sort field
text, `" ".join(colnote.n.values())` (all field values), and the
notetype-name/guid-hex/creation-date fallback slug of lines 553-559. -/
structure ColNoteE where
  sfld : String
  joinedFields : String
  fallbackSlug : String
deriving DecidableEq, Repr

/-- `get_note_path` (ki/__init__.py lines 527-574).  `preprocess` stands
for the composition of `plain_to_html` and the HTML-tag-stripping
`re.sub("<[^<]+?>", "", .)` of lines 533-534; `slugify` stands for
`F.slugify` (from `ki.functional`, which is not under `src/`).  The
source truncates to `MAX_FILENAME_LEN = 60` characters before slugging,
appends the card name when given, and then probes `ex` for a free name. -/
def get_note_path (preprocess slugify : String → String) (ex : List String)
    (cn : ColNoteE) (card_name : String) : String :=
  let ft0 := preprocess cn.sfld
  let field_text := if ft0.length = 0 then cn.sfld else ft0
  let slug1 := slugify (takeChars 60 field_text)
  let slug2 := if slug1.length = 0 then slugify (takeChars 60 cn.joinedFields) else slug1
  let slug3 := if slug2.length = 0 then cn.fallbackSlug else slug2
  let slug := if card_name ≠ "" then slug3 ++ "_" ++ card_name else slug3
  let filename := slug ++ ".md"
  if filename ∈ ex then noteLoop ex slug (ex.length + 1) 1 else filename

/-! ### The hash log and the clone/pull/push operations

The live working-repo state relevant to the hash-log claims: the
collection file's (abstract) content, the lines of `.ki/hashes`, the
backup directory's filenames, the LCA tag, and HEAD.  `md5` is passed in
as an arbitrary content-hashing function. -/

structure KiState where
  col : Nat
  hashes : List String
  backups : List String
  lcaTag : Option Nat
  headC : Nat
deriving DecidableEq, Repr

inductive KiErr where
  | updatesRejected
  | collectionChecksum
  | emptyHashes
  | nonEmptyWorkingTree
  | missingNotetype
  | notetypeMismatch
  | keyErr
  | notFound
deriving DecidableEq, Repr

/-- `hashes[-1]` after `filter(lambda l: l != "", hashes)` (lines
1429-1431 and 1553-1554): the last nonempty line of the hash log. -/
def lastHashLine (lines : List String) : Option String :=
  (lines.filter (fun l => l ≠ "")).getLast?

/-- `append_md5sum` (lines 597-602): append the line
`f"{md5sum}  {tag}\n"` to the hashes file. -/
def append_md5sum (hashes : List String) (tag md5sum : String) : List String :=
  hashes ++ [md5sum ++ "  " ++ tag]

/-- The checksum field of a hashes-file line, per the spec's line grammar
`^[0-9a-f]\x7b32\x7d  <filename>$`: its first 32 characters. -/
def recordedChecksum (line : String) : String := takeChars 32 line

/-- `_clone2` (lines 1361-1412) as it acts on the collection file and the
fresh repository's hash log: compute the collection md5 up front, write
the repository, append `md5  <collection filename>` to the fresh `.ki`
directory's (empty) hash log, commit, and fail with
`NonEmptyWorkingTreeError` if the tree is still dirty (`dirty` models
`repo.is_dirty()`).  The collection itself is never written. -/
def clone2 (md5 : Nat → String) (colName : String) (col : Nat) (dirty : Bool) :
    Except KiErr (List String) :=
  let md5sum := md5 col
  let hashes := append_md5sum [] colName md5sum
  if dirty then .error .nonEmptyWorkingTree else .ok hashes

/-- `_clone1` (lines 1341-1358): run `_clone2` and, on success, create the
LCA tag on the initial commit (id `0`). -/
def clone1 (md5 : Nat → String) (colName : String) (col : Nat) (dirty : Bool) :
    Except KiErr KiState :=
  match clone2 md5 colName col dirty with
  | .error e => .error e
  | .ok hashes =>
    .ok { col := col, hashes := hashes, backups := [], lcaTag := some 0, headC := 0 }

/-- `_pull2` (lines 1440-1532) as it acts on the live state: the LCA
three-way merge runs (its captured `git pull` output is `mergeOut`), the
collection re-checksum guards against concurrent modification
(`colDuring` is the collection file content at that re-verification), and
the pre-merge md5 is appended to the hash log unless the merge output
contains "Aborting". -/
def pull2 (md5 : Nat → String) (colName : String) (mergeOut : String)
    (colDuring : Nat) (s : KiState) : Except KiErr KiState :=
  let md5sum := md5 s.col
  if md5 colDuring ≠ md5sum then .error .collectionChecksum
  else if ¬ subStr "Aborting" mergeOut then
    .ok { s with col := colDuring, hashes := append_md5sum s.hashes colName md5sum }
  else .ok { s with col := colDuring }

inductive PullResultE where
  | upToDate
  | merged (s : KiState)
deriving DecidableEq, Repr

/-- `_pull1` (lines 1422-1437): read the hash log; if the current
collection md5 appears (as a Python substring) in the last nonempty
line, print "ki pull: up to date." and return without merging; otherwise
run `_pull2`.  `hashes[-1]` on an empty log would raise `IndexError`. -/
def pull1 (md5 : Nat → String) (colName : String) (mergeOut : String)
    (colDuring : Nat) (s : KiState) : Except KiErr PullResultE :=
  match lastHashLine s.hashes with
  | none => .error .emptyHashes
  | some last =>
    if subStr (md5 s.col) last then .ok .upToDate
    else (pull2 md5 colName mergeOut colDuring s).map .merged

inductive PushResultE where
  | UP_TO_DATE
  | NONTRIVIAL
deriving DecidableEq, Repr

/-- `write_collection` (lines 1582-1659) as it acts on the live state:
back up the old collection as `<timestamp>--<md5>.anki2` (skipped when a
file of that exact name already exists, `backup`, lines 577-594),
overwrite the live collection with the temp copy, append the *new*
collection's md5 to the hash log, commit, and delete and re-create the
LCA tag at HEAD.  `newCol` abstracts the content produced by applying
the deltas and the media additions to the copy of the collection. -/
def write_collection (md5 : Nat → String) (colName timestamp : String)
    (newCol : Nat) (s : KiState) : KiState × PushResultE :=
  let bname := timestamp ++ "--" ++ md5 s.col ++ ".anki2"
  let backups := if bname ∈ s.backups then s.backups else s.backups ++ [bname]
  ({ s with
      backups := backups,
      col := newCol,
      hashes := append_md5sum s.hashes colName (md5 newCol),
      lcaTag := some s.headC }, .NONTRIVIAL)

/-- `_push` (lines 1545-1579): verify that the current collection md5
appears in the last nonempty line of the hash log, raising
`UpdatesRejectedError` *before any write* otherwise; with an empty delta
set print "ki push: up to date." and stop; otherwise run
`write_collection`.  `deltaCount` abstracts `len(set(deltas))`.  The
returned state is the final live state (unchanged on the error paths). -/
def pushOp (md5 : Nat → String) (colName timestamp : String) (deltaCount : Nat)
    (newCol : Nat) (s : KiState) : Except KiErr PushResultE × KiState :=
  match lastHashLine s.hashes with
  | none => (.error .emptyHashes, s)
  | some last =>
    if ¬ subStr (md5 s.col) last then (.error .updatesRejected, s)
    else if deltaCount = 0 then (.ok .UP_TO_DATE, s)
    else
      let (s1, r) := write_collection md5 colName timestamp newCol s
      (.ok r, s1)

/-! ### Notes in the collection: `update_note`, `add_db_note`, `push_note`

Field definitions and notetypes follow `ki.types.Notetype` (`id`,
`name`, ordered `flds`, distinguished `sortf`).  An Anki `Note` object
is modelled by `NoteE` (tags, the deck its cards are assigned to, its
notetype id, and its ordered field map); the collection database is
modelled by its `Note` objects, its notetypes, the default deck that the
external note importer assigns new cards to, and an append-only trace of
the rows handed to the importer's SQL INSERT. -/

structure FieldDef where
  name : String
  ord : Nat
deriving DecidableEq, Repr

structure NotetypeE where
  id : Nat
  name : String
  flds : List FieldDef
  sortf : FieldDef
deriving DecidableEq, Repr

/-- One row of the collection's `notes` table, as `add_db_note` hands it
to the external note importer's SQL INSERT. -/
structure DbRow where
  nid : Nat
  guid : String
  mid : Nat
  mod : Nat
  usn : Int
  tags : String
  flds : String
  sfld : String
  csum : Nat
  flags : Nat
  data : String
deriving DecidableEq, Repr

/-- `ki.types.NoteMetadata` (`guid -> (nid, mod, mid)` map values). -/
structure NoteMetadata where
  nid : Nat
  mod : Nat
  mid : Nat
deriving DecidableEq, Repr

/-- An Anki `Note` object in the collection, as `update_note` manipulates
it: its tags, the deck its cards are assigned to, its notetype id, and
its ordered field map.  The derived row columns `csum` and `mod` are
recomputed by the external library on every `flush` and are not part of
this view. -/
structure NoteE where
  id : Nat
  tags : List String
  deck : String
  mid : Nat
  fields : List (String × String)
deriving DecidableEq, Repr

inductive KiWarning where
  | wrongFieldCount
  | inconsistentFieldNames (n k : String)
  | noteFieldValidation (key : String)
  | emptyNote
  | duplicateNote
  | unhealthyNote (health : Nat)
deriving DecidableEq, Repr

/-- `validate_decknote_fields` (ki/__init__.py lines 509-524): a
`WrongFieldCountWarning` when the number of `decknote` fields differs
from the notetype's, then an `InconsistentFieldNamesWarning` for every
positionally mismatched field name. -/
def validate_decknote_fields (notetype : NotetypeE) (decknote : DeckNote) :
    List KiWarning :=
  let names := notetype.flds.map (fun f => f.name)
  (if decknote.fields.length ≠ names.length then [.wrongFieldCount] else [])
    ++ ((names.zip (decknote.fields.map (fun kv => kv.1))).filter
          (fun p => p.1 ≠ p.2)).map (fun p => .inconsistentFieldNames p.1 p.2)

/-- `check_fields_health` (lines 361-370) on the health code returned by
Anki's `note.fields_check()`. -/
def check_fields_health (health : Nat) : List KiWarning :=
  if health = 1 then [.emptyNote]
  else if health = 2 then [.duplicateNote]
  else if health ≠ 0 then [.unhealthyNote health]
  else []

/-- `note[key] = val`: overwrite the value of field `key`. -/
def setField (note : NoteE) (key val : String) : NoteE :=
  { note with
      fields := note.fields.map (fun kv => if kv.1 = key then (kv.1, val) else kv) }

/-- Python `key in note`: the note has a field of that name. -/
def hasFieldKey (note : NoteE) (key : String) : Bool :=
  note.fields.any (fun kv => kv.1 = key)

/-- `update_note` (ki/__init__.py lines 442-506).  In order: check the
caller passed the right notetype (`NotetypeMismatchError` otherwise); set
the tags; set the deck of the note's cards (created if absent); if the
notetype changed, call `models.change` with an all-`None` field map,
which switches `mid` *and clears every field* (the source comments this
line "Set notetype (also clears all fields)"); validate the decknote's
fields against the new notetype and return those warnings immediately if
any; otherwise write each field value through `plain_to_html` (abstracted
as `p2h`), flush, and remove the note when Anki's fields-health check
(abstracted as `fieldsCheck`) reports a problem.  The returned triple is
(warnings, the note's final state, whether the note was removed). -/
def update_note (p2h : String → String) (fieldsCheck : NoteE → Nat)
    (note : NoteE) (decknote : DeckNote) (old_notetype new_notetype : NotetypeE) :
    Except KiErr (List KiWarning × NoteE × Bool) :=
  if decknote.model ≠ new_notetype.name then .error .notetypeMismatch
  else
    let note1 := { note with tags := decknote.tags }
    let note2 := { note1 with deck := decknote.deck }
    let note3 :=
      if old_notetype.id ≠ new_notetype.id then
        { note2 with
            mid := new_notetype.id,
            fields := new_notetype.flds.map (fun f => (f.name, "")) }
      else note2
    let warnings := validate_decknote_fields new_notetype decknote
    if warnings.length > 0 then .ok (warnings, note3, false)
    else
      let missing := (decknote.fields.map (fun kv => kv.1)).filter
        (fun k => ¬ hasFieldKey note3 k)
      let warnings2 := missing.map (fun k => KiWarning.noteFieldValidation k)
      let note4 := (decknote.fields.filter (fun kv => hasFieldKey note3 kv.1)).foldl
        (fun n kv => setField n kv.1 (p2h kv.2)) note3
      let fwarns := check_fields_health (fieldsCheck note4)
      .ok (warnings2 ++ fwarns, note4, fwarns.length > 0)

/-- Python `s.split(sep)` for a one-character separator: splits on every
occurrence, keeping empty pieces. -/
def splitChar (sep : Char) : List Char → List Char → List String
  | [], acc => [String.mk acc.reverse]
  | c :: cs, acc =>
    if c = sep then String.mk acc.reverse :: splitChar sep cs []
    else splitChar sep cs (c :: acc)

/-- Anki's tag-string parse: split the stored `tags` column on spaces,
dropping empty pieces. -/
def splitTags (s : String) : List String :=
  (splitChar ' ' s.toList []).filter (fun t => t ≠ "")

/-- The collection database as the push engine manipulates it: its `Note`
objects, its notetypes, the default deck the external note importer
assigns new cards to, and the append-only trace of rows handed to the
importer's SQL INSERT (`importer.addNew`).  Updates to existing notes go
through `note.flush()`, never through the importer, so they do not extend
the trace. -/
structure ColE where
  notes : List NoteE
  inserted : List DbRow
  models : List NotetypeE
  defaultDeck : String
deriving DecidableEq, Repr

/-- `col.models.id_for_name(name)`. -/
def modelIdForName (col : ColE) (name : String) : Option Nat :=
  (col.models.find? (fun m => m.name = name)).map (fun m => m.id)

/-- `col.models.get(mid)`. -/
def modelById (col : ColE) (mid : Nat) : Option NotetypeE :=
  col.models.find? (fun m => m.id = mid)

/-- `add_db_note` (ki/__init__.py lines 611-660): hand the row (tags
joined by spaces and padded with one leading and one trailing space,
field values joined by the `\x1f` separator) to the external note
importer's SQL INSERT, then return `col.get_note(nid)` — the `Note`
object parsed back from that row (field names from the notetype, values
from splitting `flds` on `\x1f`, tags from Anki's tag split), whose new
cards sit in the importer's default deck. -/
def add_db_note (col : ColE) (nid : Nat) (guid : String) (mid mod : Nat)
    (usn : Int) (tags fields : List String) (sfld : String)
    (csum flags : Nat) (data : String) : ColE × NoteE :=
  let row : DbRow :=
    { nid := nid, guid := guid, mid := mid, mod := mod, usn := usn,
      tags := " " ++ String.intercalate " " tags ++ " ",
      flds := String.intercalate "\x1F" fields,
      sfld := sfld, csum := csum, flags := flags, data := data }
  let names := ((modelById col mid).getD ⟨0, "", [], ⟨"", 0⟩⟩).flds.map
    (fun f => f.name)
  let note : NoteE :=
    { id := nid, tags := splitTags row.tags, deck := col.defaultDeck,
      mid := mid, fields := names.zip (splitChar '\x1F' row.flds.toList []) }
  ({ col with
      notes := col.notes ++ [note],
      inserted := col.inserted ++ [row] }, note)

/-- The unconditional tail of `push_note` (ki/__init__.py lines 713-717):
look up `old_notetype = M.notetype(note.note_type())` and run
`update_note` on the note — whether it was just inserted or fetched —
then apply the result to the collection: the flushed note replaces its
previous state, and the note is deleted when the fields-health check
removed it.  The warnings are returned to the caller for printing. -/
def finishUpdate (p2h : String → String) (fieldsCheck : NoteE → Nat)
    (col : ColE) (ctrAfter : Nat) (note : NoteE) (decknote : DeckNote)
    (new_notetype : NotetypeE) : Except KiErr (ColE × Nat × List KiWarning) :=
  match modelById col note.mid with
  | none => .error .missingNotetype
  | some old_notetype =>
    match update_note p2h fieldsCheck note decknote old_notetype new_notetype with
    | .error e => .error e
    | .ok (warnings, note1, removed) =>
      let notes1 := col.notes.map (fun n => if n.id = note.id then note1 else n)
      let notes2 := if removed then notes1.filter (fun n => n.id ≠ note.id)
        else notes1
      .ok ({ col with notes := notes2 }, ctrAfter, warnings)

/-- `push_note` (ki/__init__.py lines 663-717), on the collection state
and the `new_nids` counter.  The notetype is looked up by name (else
`MissingNotetypeError`); a guid present in `guids` means the existing
note is fetched (`col.get_note`, `NotFoundError` if its nid is gone); a
fresh guid takes `nid = next(new_nids)` and inserts a row via
`add_db_note` with `mod = int(timestamp_ns // 1e9)` (exact integer
division here), `usn = -1`, `sfld` the value of the notetype's sort field
(a missing key would be a Python `KeyError`), `csum = 0`, `flags = 0`,
empty `data`.  Either way the note is then run **unconditionally**
through `update_note` (line 717), which rewrites its fields through
`plain_to_html` and may remove it. -/
def push_note (p2h : String → String) (fieldsCheck : NoteE → Nat)
    (timestamp_ns : Nat) (guids : List (String × NoteMetadata))
    (col : ColE) (ctr : Nat) (decknote : DeckNote) :
    Except KiErr (ColE × Nat × List KiWarning) :=
  match modelIdForName col decknote.model with
  | none => .error .missingNotetype
  | some model_id =>
    match modelById col model_id with
    | none => .error .missingNotetype
    | some new_notetype =>
      match guids.find? (fun p => p.1 = decknote.guid) with
      | some p =>
        match col.notes.find? (fun n => n.id = p.2.nid) with
        | none => .error .notFound
        | some note =>
          finishUpdate p2h fieldsCheck col ctr note decknote new_notetype
      | none =>
        match decknote.fields.find? (fun kv => kv.1 = new_notetype.sortf.name) with
        | none => .error .keyErr
        | some kv =>
          let ins := add_db_note col ctr decknote.guid model_id
            (timestamp_ns / 1000000000) (-1) decknote.tags
            (decknote.fields.map (fun kv => kv.2)) kv.2 0 0 ""
          finishUpdate p2h fieldsCheck ins.1 (ctr + 1) ins.2 decknote new_notetype

/-- The upsert loop of `write_collection` (lines 1626-1629): thread the
`new_nids` counter through `push_note` over the parsed decknotes; the
returned warnings are printed (`do(warn, ...)`), not accumulated in the
state. -/
def pushNotes (p2h : String → String) (fieldsCheck : NoteE → Nat)
    (timestamp_ns : Nat) (guids : List (String × NoteMetadata)) :
    ColE → Nat → List DeckNote → Except KiErr ColE
  | col, _, [] => .ok col
  | col, ctr, dn :: dns =>
    match push_note p2h fieldsCheck timestamp_ns guids col ctr dn with
    | .error e => .error e
    | .ok (col1, ctr1, _) => pushNotes p2h fieldsCheck timestamp_ns guids col1 ctr1 dns

/-- The upsert phase of `write_collection` with the counter started at
`new_nids = itertools.count(int(timestamp_ns / 1e6))` — the push
timestamp in milliseconds (exact integer division here). -/
def pushNotesAll (p2h : String → String) (fieldsCheck : NoteE → Nat)
    (timestamp_ns : Nat) (guids : List (String × NoteMetadata))
    (col : ColE) (dns : List DeckNote) : Except KiErr ColE :=
  pushNotes p2h fieldsCheck timestamp_ns guids col (timestamp_ns / 1000000) dns

/-- The database row the C5 claim describes for a new note pushed with
nid counter value `nid` at push timestamp `ts` nanoseconds (spec side):
`mod` is the push timestamp in seconds, `usn = -1`, the field values
joined by `\x1f`, the tags space-joined and padded, `sfld` the value of
the notetype's sort field, `csum = 0`, `flags = 0`, empty `data`. -/
def claimedRow (col : ColE) (ts nid : Nat) (dn : DeckNote) : DbRow :=
  let nt := ((modelIdForName col dn.model).bind (modelById col)).getD ⟨0, "", [], ⟨"", 0⟩⟩
  { nid := nid, guid := dn.guid, mid := nt.id,
    mod := ts / 1000000000, usn := -1,
    tags := " " ++ String.intercalate " " dn.tags ++ " ",
    flds := String.intercalate "\x1F" (dn.fields.map (fun kv => kv.2)),
    sfld := ((dn.fields.find? (fun kv => kv.1 = nt.sortf.name)).map
      (fun kv => kv.2)).getD "",
    csum := 0, flags := 0, data := "" }

/-! ## Theorems -/

set_option maxRecDepth 10000

theorem listPref_append [DecidableEq α] (l t : List α) : listPref l (l ++ t) = true := by
  induction l with
  | nil => rfl
  | cons a as ih => simp [listPref, ih]

theorem listSub_of_listPref [DecidableEq α] (p l : List α) (h : listPref p l = true) :
    listSub p l = true := by
  cases l with
  | nil => simpa [listSub] using h
  | cons b bs => simp [listSub, h]

/-- A prefix of a string is a substring of it (`sub in s` holds). -/
theorem subStr_append (sub post : String) : subStr sub (sub ++ post) = true := by
  apply listSub_of_listPref
  have h : (sub ++ post).toList = sub.toList ++ post.toList := by
    simp [String.toList]
  rw [h]
  exact listPref_append _ _

/-- Appending a nonempty line makes it the last nonempty line. -/
theorem lastHashLine_append (lines : List String) (l : String) (h : l ≠ "") :
    lastHashLine (lines ++ [l]) = some l := by
  unfold lastHashLine
  rw [List.filter_append]
  simp [List.filter, h]

/-- C6 counterexample: a file whose first three lines satisfy
`is_anki_note` but whose fourth line is not a `notetype: ` line is
accepted by `is_anki_note` even though the fixed 8-line header of the
claim does not hold. -/
theorem c6_counterexample :
    is_anki_note
        ⟨"x.md", ["# Note\n", "```\n", "guid: q\n", "oops\n", "a\n", "b\n", "c\n", "d\n"]⟩
      = true
    ∧ fullHeaderCheck
        ⟨"x.md", ["# Note\n", "```\n", "guid: q\n", "oops\n", "a\n", "b\n", "c\n", "d\n"]⟩
      = false := by
  constructor
  · decide
  · decide

/-- C6 (amended): `is_anki_note` returns true iff the file has the `.md`
suffix, at least 8 lines, and its first **three** lines are the header
prefix `# Note`, an opening fence, and a `guid: ` line; the remaining
five lines of the fixed header (`notetype: `, closing fence, blank,
`### Tags`, opening fence) are not checked. -/
theorem c6_is_anki_note_checks_first_three (f : MdFile) :
    is_anki_note f = firstThreeHeaderCheck f := by
  unfold is_anki_note firstThreeHeaderCheck
  by_cases h1 : pathSuffix f.name = ".md" <;>
    by_cases h2 : f.lines.length < 8 <;>
      by_cases h3 : f.lines.getD 0 "" = "# Note\n" <;>
        by_cases h4 : f.lines.getD 1 "" = "```\n" <;>
          by_cases h5 : strPref "guid: " (f.lines.getD 2 "") = true <;>
            simp_all [Nat.not_lt, Nat.lt_iff_add_one_le]

theorem foldl_shift_eq_beNumSpec (bs : List Nat) (a : Nat) :
    bs.foldl (fun h b => (h <<< 8) + b) a = a * 256 ^ bs.length + beNumSpec bs := by
  induction bs generalizing a with
  | nil => simp [beNumSpec]
  | cons b bs ih =>
    simp only [List.foldl_cons, beNumSpec, List.length_cons, ih]
    have hs : a <<< 8 = a * 256 := by
      rw [Nat.shiftLeft_eq]
    rw [hs]
    ring

theorem guidLoop_eq_baseDigits (fuel : Nat) :
    ∀ (x : Nat) (chars : List Char),
      guidLoop fuel x chars
        = chars ++ (baseDigits 91 fuel x).map (fun d => BASE91_TABLE.getD d ' ') := by
  induction fuel with
  | zero => intro x chars; simp [guidLoop, baseDigits]
  | succ fuel ih =>
    intro x chars
    have hlen : BASE91_TABLE.length = 91 := by decide
    by_cases hx : x = 0
    · simp [guidLoop, baseDigits, hx]
    · have hpos : x > 0 := Nat.pos_of_ne_zero hx
      simp only [guidLoop, baseDigits, hlen, hpos, if_pos, hx, if_neg, ite_false]
      rw [ih]
      simp

theorem get_guid_eq_guidSpecAmended (fields : List String) :
    get_guid fields = guidSpecAmended fields := by
  simp only [get_guid, guidSpecAmended, base91Spec, guidLoop_eq_baseDigits,
    foldl_shift_eq_beNumSpec]
  simp [List.map_reverse]

/-- C1 counterexample: for the note file with fields `a`, `b` and a blank
`guid:` header, the GUID assigned by `parse_note` is **not** the base91
encoding of the first 8 SHA-256 digest bytes of the `\x1f`-joined field
values (the source joins with `"__"`, not `"\x1f"`). -/
theorem c1_counterexample :
    (parse_note ⟨"t", "", "Basic", [], [("Front", "a"), ("Back", "b")]⟩ ["d"]).guid
      ≠ guidSpecClaimed
          ([("Front", "a"), ("Back", "b")].map (fun kv : String × String => kv.2)) := by
  decide

/-- C1 (amended): for every note file whose `guid:` header is the empty
string, the GUID assigned during parsing equals the base91 encoding (over
the 91-character table) of the integer formed from the first 8 bytes of
the SHA-256 digest of the note's field values joined by the separator
`"__"` (two underscores — not `\x1f`). -/
theorem c1_parse_note_blank_guid (flatnote : FlatNote) (parentParts : List String)
    (h : flatnote.guid = "") :
    (parse_note flatnote parentParts).guid
      = guidSpecAmended (flatnote.fields.map (fun kv => kv.2)) := by
  simp only [parse_note, h, ite_not, if_true, if_pos]
  exact get_guid_eq_guidSpecAmended _

/-- Witness for C1: the amended theorem applied at a concrete note file
with a blank `guid:` header. -/
theorem c1_witness :
    (parse_note ⟨"t", "", "Basic", [], [("Front", "a"), ("Back", "b")]⟩ ["d"]).guid
      = guidSpecAmended
          ([("Front", "a"), ("Back", "b")].map (fun kv : String × String => kv.2)) :=
  c1_parse_note_blank_guid ⟨"t", "", "Basic", [], [("Front", "a"), ("Back", "b")]⟩ ["d"] rfl

/-- C4: for a RENAMED diff entry whose A-side and B-side files both exist
and are not ignorable, `mungediff` yields exactly two deltas — DELETED at
the A path and ADDED at the B path — when the GUIDs parsed from the two
sides differ, and exactly one delta (RENAMED) at the B path otherwise. -/
theorem c4_mungediff_renamed (parse : MdFile → DeckNote) (a_root b_root : FsSide)
    (a b : RelPath) (fa fb : MdFile)
    (hia : is_ignorable a_root a = false) (hib : is_ignorable b_root b = false)
    (hfa : a_root a = some fa) (hfb : b_root b = some fb) :
    mungediff parse a_root b_root ⟨.RENAMED, some a, some b⟩
      = if (parse fa).guid ≠ (parse fb).guid then
          [.inl ⟨.DELETED, fa, a⟩, .inl ⟨.ADDED, fb, b⟩]
        else
          [.inl ⟨.RENAMED, fb, b⟩] := by
  unfold mungediff
  simp only [Option.isSome_some, if_true, reduceCtorEq, if_false, hia, hib,
    Bool.or_self, hfa, hfb]

/-- Witness for C4: a concrete RENAMED diff entry between two existing,
non-ignorable note files, with a parse function reading the GUID off the
third line. -/
theorem c4_witness :
    mungediff (fun f => ⟨"", f.lines.getD 2 "", "", "", [], []⟩)
        (fun p =>
          if p = ⟨["old.md"]⟩ then
            some ⟨"old.md", ["# Note\n", "```\n", "guid: 1\n", "notetype: B\n",
              "```\n", "\n", "### Tags\n", "```\n"]⟩
          else none)
        (fun p =>
          if p = ⟨["new.md"]⟩ then
            some ⟨"new.md", ["# Note\n", "```\n", "guid: 2\n", "notetype: B\n",
              "```\n", "\n", "### Tags\n", "```\n"]⟩
          else none)
        ⟨.RENAMED, some ⟨["old.md"]⟩, some ⟨["new.md"]⟩⟩
      = if ((fun f : MdFile => (⟨"", f.lines.getD 2 "", "", "", [], []⟩ : DeckNote))
              ⟨"old.md", ["# Note\n", "```\n", "guid: 1\n", "notetype: B\n",
                "```\n", "\n", "### Tags\n", "```\n"]⟩).guid
            ≠ ((fun f : MdFile => (⟨"", f.lines.getD 2 "", "", "", [], []⟩ : DeckNote))
              ⟨"new.md", ["# Note\n", "```\n", "guid: 2\n", "notetype: B\n",
                "```\n", "\n", "### Tags\n", "```\n"]⟩).guid then
          [.inl ⟨.DELETED,
            ⟨"old.md", ["# Note\n", "```\n", "guid: 1\n", "notetype: B\n",
              "```\n", "\n", "### Tags\n", "```\n"]⟩, ⟨["old.md"]⟩⟩,
           .inl ⟨.ADDED,
            ⟨"new.md", ["# Note\n", "```\n", "guid: 2\n", "notetype: B\n",
              "```\n", "\n", "### Tags\n", "```\n"]⟩, ⟨["new.md"]⟩⟩]
        else
          [.inl ⟨.RENAMED,
            ⟨"new.md", ["# Note\n", "```\n", "guid: 2\n", "notetype: B\n",
              "```\n", "\n", "### Tags\n", "```\n"]⟩, ⟨["new.md"]⟩⟩] :=
  c4_mungediff_renamed _ _ _ _ _ _ _
    (by decide) (by decide) (by decide) (by decide)

theorem ofDigits10_decDigitsAux (fuel : Nat) :
    ∀ n : Nat, n ≤ fuel → ofDigits10 (decDigitsAux fuel n) = n := by
  induction fuel with
  | zero =>
    intro n hn
    interval_cases n
    simp [decDigitsAux, ofDigits10]
  | succ fuel ih =>
    intro n hn
    by_cases hz : n = 0
    · simp [decDigitsAux, ofDigits10, hz]
    · have hdiv : n / 10 ≤ fuel := by
        have h10 : n / 10 < n := Nat.div_lt_self (Nat.pos_of_ne_zero hz) (by norm_num)
        omega
      simp only [decDigitsAux, hz, if_neg, ite_false, ofDigits10, ih _ hdiv]
      omega

theorem decDigitsAux_lt_ten (fuel : Nat) :
    ∀ n : Nat, ∀ d ∈ decDigitsAux fuel n, d < 10 := by
  induction fuel with
  | zero => intro n d hd; simp [decDigitsAux] at hd
  | succ fuel ih =>
    intro n d hd
    by_cases hz : n = 0
    · simp [decDigitsAux, hz] at hd
    · simp only [decDigitsAux, hz, if_neg, ite_false, List.mem_cons] at hd
      rcases hd with h | h
      · subst h
        exact Nat.mod_lt _ (by norm_num)
      · exact ih _ _ h

theorem decChar_inj : ∀ a < 10, ∀ b < 10, decChar a = decChar b → a = b := by decide

theorem map_decChar_inj :
    ∀ l1 l2 : List Nat, (∀ d ∈ l1, d < 10) → (∀ d ∈ l2, d < 10) →
      l1.map decChar = l2.map decChar → l1 = l2 := by
  intro l1
  induction l1 with
  | nil => intro l2 _ _ h; cases l2 <;> simp_all
  | cons a as ih =>
    intro l2 h1 h2 h
    cases l2 with
    | nil => simp at h
    | cons b bs =>
      simp only [List.map_cons, List.cons.injEq] at h
      have ha : a = b :=
        decChar_inj a (h1 a (by simp)) b (h2 b (by simp)) h.1
      have hs : as = bs :=
        ih bs (fun d hd => h1 d (by simp [hd])) (fun d hd => h2 d (by simp [hd])) h.2
      simp [ha, hs]

theorem natStr_inj (m n : Nat) (hm : 1 ≤ m) (hn : 1 ≤ n)
    (h : natStr m = natStr n) : m = n := by
  unfold natStr at h
  rw [if_neg (by omega), if_neg (by omega)] at h
  have hdata :
      (decDigitsAux m m).reverse.map decChar = (decDigitsAux n n).reverse.map decChar := by
    have := congrArg String.data h
    simpa using this
  have hrev : (decDigitsAux m m).reverse = (decDigitsAux n n).reverse :=
    map_decChar_inj _ _
      (fun d hd => decDigitsAux_lt_ten m m d (List.mem_reverse.mp hd))
      (fun d hd => decDigitsAux_lt_ten n n d (List.mem_reverse.mp hd))
      hdata
  have hlists : decDigitsAux m m = decDigitsAux n n :=
    List.reverse_injective hrev
  calc m = ofDigits10 (decDigitsAux m m) := (ofDigits10_decDigitsAux m m le_rfl).symm
    _ = ofDigits10 (decDigitsAux n n) := by rw [hlists]
    _ = n := ofDigits10_decDigitsAux n n le_rfl

theorem mkName_inj (slug : String) (i j : Nat) (hi : 1 ≤ i) (hj : 1 ≤ j)
    (h : mkName slug i = mkName slug j) : i = j := by
  unfold mkName at h
  have hdata := congrArg String.data h
  simp only [String.data_append, List.append_assoc] at hdata
  have h1 : (natStr i).data = (natStr j).data :=
    List.append_cancel_right
      (List.append_cancel_left (List.append_cancel_left hdata))
  exact natStr_inj i j hi hj (String.ext h1)

/-- In any window of `ex.length + 1` consecutive suffix indices there is a
candidate filename not present in `ex` (the candidates are pairwise
distinct, so they cannot all be among `ex`'s entries). -/
theorem existsFreeName (ex : List String) (slug : String) (i0 : Nat) (h0 : 1 ≤ i0) :
    ∃ j, i0 ≤ j ∧ j < i0 + (ex.length + 1) ∧ mkName slug j ∉ ex := by
  by_contra hno
  push_neg at hno
  have hsub : (Finset.Ico i0 (i0 + (ex.length + 1))).image (mkName slug)
      ⊆ ex.toFinset := by
    intro s hs
    simp only [Finset.mem_image, Finset.mem_Ico] at hs
    obtain ⟨j, ⟨hj1, hj2⟩, rfl⟩ := hs
    exact List.mem_toFinset.mpr (hno j hj1 hj2)
  have hinj : Set.InjOn (mkName slug) (Finset.Ico i0 (i0 + (ex.length + 1))) := by
    intro x hx y hy hxy
    simp only [Finset.coe_Ico, Set.mem_Ico] at hx hy
    exact mkName_inj slug x y (le_trans h0 hx.1) (le_trans h0 hy.1) hxy
  have hcard := Finset.card_le_card hsub
  rw [Finset.card_image_of_injOn hinj, Nat.card_Ico] at hcard
  have htf := List.toFinset_card_le ex
  omega

/-- The suffix loop returns the candidate at the least free index at or
after its start, provided a free index exists within its fuel. -/
theorem noteLoop_finds_least (ex : List String) (slug : String) :
    ∀ (fuel i : Nat),
      (∃ j, i ≤ j ∧ j < i + fuel ∧ mkName slug j ∉ ex) →
      ∃ j, i ≤ j ∧ noteLoop ex slug fuel i = mkName slug j ∧ mkName slug j ∉ ex ∧
        ∀ k, i ≤ k → k < j → mkName slug k ∈ ex := by
  intro fuel
  induction fuel with
  | zero =>
    intro i h
    obtain ⟨j, hj1, hj2, _⟩ := h
    omega
  | succ fuel ih =>
    intro i h
    obtain ⟨j, hj1, hj2, hjf⟩ := h
    by_cases hm : mkName slug i ∈ ex
    · have hji : j ≠ i := by
        intro he
        exact hjf (he ▸ hm)
      obtain ⟨j', hj'1, heq, hfree, hleast⟩ :=
        ih (i + 1) ⟨j, by omega, by omega, hjf⟩
      refine ⟨j', by omega, ?_, hfree, ?_⟩
      · simpa [noteLoop, hm] using heq
      · intro k hk1 hk2
        rcases Nat.eq_or_lt_of_le hk1 with rfl | hlt
        · exact hm
        · exact hleast k (by omega) hk2
    · exact ⟨i, le_rfl, by simp [noteLoop, hm], hm,
        fun k hk1 hk2 => absurd hk1 (by omega)⟩


/-- The final name-probing step of `get_note_path`, for any slug, returns
a name not present in the deck directory. -/
theorem notePick_fresh (ex : List String) (slug : String) :
    (if slug ++ ".md" ∈ ex then noteLoop ex slug (ex.length + 1) 1
     else slug ++ ".md") ∉ ex := by
  by_cases hm : slug ++ ".md" ∈ ex
  · rw [if_pos hm]
    obtain ⟨j, hj1, hj2, hjf⟩ := existsFreeName ex slug 1 le_rfl
    obtain ⟨j', _, heq, hfree, _⟩ :=
      noteLoop_finds_least ex slug (ex.length + 1) 1 ⟨j, hj1, hj2, hjf⟩
    rw [heq]
    exact hfree
  · rw [if_neg hm]
    exact hm

/-- C9: `get_note_path` always returns a path that does not exist in the
deck directory (a `NoFile`): on every collision the suffix loop keeps
incrementing `_i` until a nonexistent name is found, so note write-out
never overwrites an existing file. -/
theorem c9_get_note_path_fresh (preprocess slugify : String → String)
    (ex : List String) (cn : ColNoteE) (card_name : String) :
    get_note_path preprocess slugify ex cn card_name ∉ ex := by
  simp only [get_note_path]
  exact notePick_fresh ex _

/-- C7: for a note written out during clone (no card-name suffix) whose
preprocessed sort-field text and its slug are nonempty, the generated
filename is the slug of the sort-field text truncated to 60 characters
with `.md` appended; when that name already exists in the deck directory,
numeric suffixes `_1`, `_2`, … are tried in increasing order until a name
that does not exist is found (the result is the candidate at the least
free index). -/
theorem c7_get_note_path_name (preprocess slugify : String → String)
    (ex : List String) (cn : ColNoteE)
    (h1 : (preprocess cn.sfld).length ≠ 0)
    (h2 : (slugify (takeChars 60 (preprocess cn.sfld))).length ≠ 0) :
    (slugify (takeChars 60 (preprocess cn.sfld)) ++ ".md" ∉ ex →
      get_note_path preprocess slugify ex cn ""
        = slugify (takeChars 60 (preprocess cn.sfld)) ++ ".md")
    ∧ (slugify (takeChars 60 (preprocess cn.sfld)) ++ ".md" ∈ ex →
      ∃ i, 1 ≤ i
        ∧ get_note_path preprocess slugify ex cn ""
            = mkName (slugify (takeChars 60 (preprocess cn.sfld))) i
        ∧ mkName (slugify (takeChars 60 (preprocess cn.sfld))) i ∉ ex
        ∧ ∀ k, 1 ≤ k → k < i →
            mkName (slugify (takeChars 60 (preprocess cn.sfld))) k ∈ ex) := by
  have hpath : get_note_path preprocess slugify ex cn ""
      = (if slugify (takeChars 60 (preprocess cn.sfld)) ++ ".md" ∈ ex then
          noteLoop ex (slugify (takeChars 60 (preprocess cn.sfld))) (ex.length + 1) 1
         else slugify (takeChars 60 (preprocess cn.sfld)) ++ ".md") := by
    simp [get_note_path, h1, h2]
  constructor
  · intro hnm
    rw [hpath, if_neg hnm]
  · intro hmem
    obtain ⟨j, hj1, hj2, hjf⟩ :=
      existsFreeName ex (slugify (takeChars 60 (preprocess cn.sfld))) 1 le_rfl
    obtain ⟨j', hj'1, heq, hfree, hleast⟩ :=
      noteLoop_finds_least ex (slugify (takeChars 60 (preprocess cn.sfld)))
        (ex.length + 1) 1 ⟨j, hj1, hj2, hjf⟩
    refine ⟨j', hj'1, ?_, hfree, hleast⟩
    rw [hpath, if_pos hmem]
    exact heq

/-- Witness for C7: with identity preprocessing and slugging, sort field
`x`, and existing files `x.md` and `x_1.md`, the first free suffix is
found. -/
theorem c7_witness :
    ("x.md" ∉ (["x.md", "x_1.md"] : List String) →
        get_note_path id id ["x.md", "x_1.md"] ⟨"x", "", ""⟩ "" = "x.md")
    ∧ ("x.md" ∈ (["x.md", "x_1.md"] : List String) →
        ∃ i, 1 ≤ i
          ∧ get_note_path id id ["x.md", "x_1.md"] ⟨"x", "", ""⟩ "" = mkName "x" i
          ∧ mkName "x" i ∉ (["x.md", "x_1.md"] : List String)
          ∧ ∀ k, 1 ≤ k → k < i → mkName "x" k ∈ (["x.md", "x_1.md"] : List String)) := by
  exact c7_get_note_path_name id id ["x.md", "x_1.md"] ⟨"x", "", ""⟩
    (by decide) (by decide)

/-- A hashes-file line `md5 ++ "  " ++ tag` is never empty. -/
theorem hashLine_ne_empty (m t : String) : m ++ "  " ++ t ≠ "" := by
  intro h
  have hd := congrArg String.data h
  simp [String.data_append] at hd

/-- String append is definitionally left-nested; reassociation lemma. -/
theorem strAppend_assoc (a b c : String) : a ++ b ++ c = a ++ (b ++ c) := by
  apply String.ext
  simp [String.data_append]

/-- C2: when the MD5 of the current collection does not appear in the
last nonempty line of `.ki/hashes`, push fails with
`UpdatesRejectedError` before performing any write: the final state is
exactly the input state, so no backup file is created, the LCA tag is not
moved or recreated, and the live collection file is unchanged. -/
theorem c2_push_stale_rejected (md5 : Nat → String) (colName timestamp : String)
    (deltaCount newCol : Nat) (s : KiState) (last : String)
    (hlast : lastHashLine s.hashes = some last)
    (hmiss : subStr (md5 s.col) last = false) :
    pushOp md5 colName timestamp deltaCount newCol s
      = (.error .updatesRejected, s) := by
  unfold pushOp
  rw [hlast]
  simp [hmiss]

/-- Witness for C2: a state whose hash log does not mention the current
collection md5. -/
theorem c2_witness :
    pushOp (fun _ => "zz") "col" "t" 1 7 ⟨0, ["aa  col"], [], none, 0⟩
      = (.error .updatesRejected, ⟨0, ["aa  col"], [], none, 0⟩) :=
  c2_push_stale_rejected (fun _ => "zz") "col" "t" 1 7
    ⟨0, ["aa  col"], [], none, 0⟩ "aa  col" (by decide) (by decide)

/-- C3: after every successful clone, every successful pull whose merge
did not abort, and every successful push, the last nonempty line of the
`.ki/hashes` log contains the MD5 of the live collection file as the
operation completes. -/
theorem c3_hashes_last_line (md5 : Nat → String)
    (colName timestamp mergeOut : String)
    (col colDuring newCol deltaCount : Nat) (dirty : Bool) (s : KiState) :
    (∀ st', clone1 md5 colName col dirty = .ok st' →
      ∃ line, lastHashLine st'.hashes = some line
        ∧ subStr (md5 st'.col) line = true)
    ∧ (∀ st', pull1 md5 colName mergeOut colDuring s = .ok (.merged st') →
        subStr "Aborting" mergeOut = false →
        ∃ line, lastHashLine st'.hashes = some line
          ∧ subStr (md5 st'.col) line = true)
    ∧ (∀ r st', pushOp md5 colName timestamp deltaCount newCol s = (.ok r, st') →
        ∃ line, lastHashLine st'.hashes = some line
          ∧ subStr (md5 st'.col) line = true) := by
  refine ⟨?_, ?_, ?_⟩
  · intro st' h
    unfold clone1 clone2 at h
    cases dirty with
    | true => simp at h
    | false =>
      simp only [Bool.false_eq_true, if_false, ite_false, Except.ok.injEq] at h
      subst h
      refine ⟨md5 col ++ "  " ++ colName, ?_, ?_⟩
      · simpa [append_md5sum] using
          lastHashLine_append [] (md5 col ++ "  " ++ colName) (hashLine_ne_empty _ _)
      · simpa [strAppend_assoc] using subStr_append (md5 col) ("  " ++ colName)
  · intro st' h habort
    unfold pull1 at h
    cases hl : lastHashLine s.hashes with
    | none =>
      simp only [hl] at h
      exact Except.noConfusion h
    | some last =>
      simp only [hl] at h
      by_cases hsub : subStr (md5 s.col) last = true
      · rw [if_pos hsub] at h
        simp at h
      · rw [if_neg hsub] at h
        unfold pull2 at h
        by_cases hcd : md5 colDuring ≠ md5 s.col
        · rw [if_pos hcd] at h
          simp [Except.map] at h
        · rw [if_neg hcd] at h
          push_neg at hcd
          rw [if_pos (by simp [habort])] at h
          simp only [Except.map, Except.ok.injEq, PullResultE.merged.injEq] at h
          subst h
          refine ⟨md5 s.col ++ "  " ++ colName, ?_, ?_⟩
          · simpa [append_md5sum] using
              lastHashLine_append s.hashes (md5 s.col ++ "  " ++ colName)
                (hashLine_ne_empty _ _)
          · simpa [hcd, strAppend_assoc] using
              subStr_append (md5 s.col) ("  " ++ colName)
  · intro r st' h
    unfold pushOp at h
    cases hl : lastHashLine s.hashes with
    | none =>
      simp only [hl, Prod.mk.injEq] at h
      exact Except.noConfusion h.1
    | some last =>
      simp only [hl] at h
      by_cases hsub : subStr (md5 s.col) last = true
      · rw [if_neg (by simp [hsub])] at h
        by_cases hd : deltaCount = 0
        · rw [if_pos hd] at h
          simp only [Prod.mk.injEq] at h
          obtain ⟨-, h2⟩ := h
          subst h2
          exact ⟨last, hl, hsub⟩
        · rw [if_neg hd] at h
          unfold write_collection at h
          simp only [Prod.mk.injEq] at h
          obtain ⟨-, h2⟩ := h
          subst h2
          refine ⟨md5 newCol ++ "  " ++ colName, ?_, ?_⟩
          · simpa [append_md5sum] using
              lastHashLine_append s.hashes (md5 newCol ++ "  " ++ colName)
                (hashLine_ne_empty _ _)
          · simpa [strAppend_assoc] using subStr_append (md5 newCol) ("  " ++ colName)
      · rw [if_pos (by simp [hsub])] at h
        simp at h

/-- Witness for C3: the three clauses applied to concrete clone, pull, and
push runs with a constant hashing function. -/
theorem c3_witness :
    (∃ line, lastHashLine ["h  c"] = some line ∧ subStr "h" line = true)
    ∧ (∃ line, lastHashLine ["zz", "h  c"] = some line ∧ subStr "h" line = true)
    ∧ (∃ line, lastHashLine ["h  c", "h  c"] = some line ∧ subStr "h" line = true) :=
  ⟨(c3_hashes_last_line (fun _ => "h") "c" "t" "" 5 5 9 1 false
      ⟨5, ["zz"], [], none, 0⟩).1 ⟨5, ["h  c"], [], some 0, 0⟩ rfl,
   (c3_hashes_last_line (fun _ => "h") "c" "t" "" 5 5 9 1 false
      ⟨5, ["zz"], [], none, 0⟩).2.1 ⟨5, ["zz", "h  c"], [], none, 0⟩
      rfl (by decide),
   (c3_hashes_last_line (fun _ => "h") "c" "t" "" 5 5 9 1 false
      ⟨5, ["h  c"], [], none, 0⟩).2.2 .NONTRIVIAL
      ⟨9, ["h  c", "h  c"], ["t--h.anki2"], some 0, 0⟩ rfl⟩

/-- C8 counterexample: with last hashes line
`aa…a  col-bb…b.anki2` (32 `a`s as the recorded checksum, a filename
containing 32 `b`s) and current collection md5 `bb…b`, pull reports
"up to date" even though the current md5 does **not** equal the checksum
recorded in that line: the source tests substring containment in the
whole line (`md5sum in hashes[-1]`), not equality with the checksum
field. -/
theorem c8_counterexample :
    pull1 (fun _ => "bbbbbbbbbbbbbbbbbbbbbbbbbbbbbbbb") "c" "" 0
        ⟨0, ["aaaaaaaaaaaaaaaaaaaaaaaaaaaaaaaa  col-bbbbbbbbbbbbbbbbbbbbbbbbbbbbbbbb.anki2"],
          [], none, 0⟩
      = .ok .upToDate
    ∧ lastHashLine
        ["aaaaaaaaaaaaaaaaaaaaaaaaaaaaaaaa  col-bbbbbbbbbbbbbbbbbbbbbbbbbbbbbbbb.anki2"]
      = some "aaaaaaaaaaaaaaaaaaaaaaaaaaaaaaaa  col-bbbbbbbbbbbbbbbbbbbbbbbbbbbbbbbb.anki2"
    ∧ recordedChecksum
        "aaaaaaaaaaaaaaaaaaaaaaaaaaaaaaaa  col-bbbbbbbbbbbbbbbbbbbbbbbbbbbbbbbb.anki2"
      ≠ "bbbbbbbbbbbbbbbbbbbbbbbbbbbbbbbb" := by
  refine ⟨rfl, by decide, by decide⟩

/-- C8 (amended): pull prints "ki pull: up to date." and returns without
performing any merge exactly when the MD5 of the current collection file
**appears as a substring of** the last nonempty line of `.ki/hashes`
(which need not coincide with equality against the line's recorded
checksum field, since the filename part can also contain the digest). -/
theorem c8_pull_up_to_date (md5 : Nat → String) (colName mergeOut : String)
    (colDuring : Nat) (s : KiState) (last : String)
    (hlast : lastHashLine s.hashes = some last) :
    pull1 md5 colName mergeOut colDuring s = .ok .upToDate
      ↔ subStr (md5 s.col) last = true := by
  unfold pull1
  simp only [hlast]
  by_cases hsub : subStr (md5 s.col) last = true
  · simp [hsub]
  · rw [if_neg hsub]
    constructor
    · intro h
      exfalso
      cases hp : pull2 md5 colName mergeOut colDuring s with
      | error e => rw [hp] at h; exact Except.noConfusion h
      | ok st'' =>
        rw [hp] at h
        simp [Except.map] at h
    · intro h
      exact absurd h hsub

/-- Witness for C8: a state whose hash-log last line contains the current
collection md5, so pull is up to date. -/
theorem c8_witness :
    pull1 (fun _ => "h") "c" "" 0 ⟨0, ["h  c"], [], none, 0⟩ = .ok .upToDate
      ↔ subStr "h" "h  c" = true :=
  c8_pull_up_to_date (fun _ => "h") "c" "" 0 ⟨0, ["h  c"], [], none, 0⟩ "h  c" rfl

/-- Given the right notetype name, `update_note` never fails: both the
early-warning return and the field-writing path produce an `ok`. -/
theorem update_note_ok (p2h : String → String) (fieldsCheck : NoteE → Nat)
    (note : NoteE) (dn : DeckNote) (ont nnt : NotetypeE)
    (hname : dn.model = nnt.name) :
    ∃ w n1 r, update_note p2h fieldsCheck note dn ont nnt = .ok (w, n1, r) := by
  simp only [update_note]
  rw [if_neg (by simp [hname])]
  split
  · exact ⟨_, _, _, rfl⟩
  · exact ⟨_, _, _, rfl⟩

/-- A single `push_note` call on a fresh GUID hands exactly the claimed
row to the importer's SQL INSERT, advances the nid counter by one, and
then runs `update_note` on the inserted note (which touches the `notes`
state only, never the insert trace or the models). -/
theorem push_note_new_inserted (p2h : String → String)
    (fieldsCheck : NoteE → Nat) (ts : Nat)
    (guids : List (String × NoteMetadata)) (col : ColE)
    (ctr : Nat) (dn : DeckNote) (mid : Nat) (nt : NotetypeE)
    (hg : guids.find? (fun p => p.1 = dn.guid) = none)
    (hm : modelIdForName col dn.model = some mid)
    (hb : modelById col mid = some nt)
    (hname : nt.name = dn.model)
    (hkv : (dn.fields.find? (fun kv => kv.1 = nt.sortf.name)).isSome) :
    ∃ col1 ws, push_note p2h fieldsCheck ts guids col ctr dn
        = .ok (col1, ctr + 1, ws)
      ∧ col1.models = col.models
      ∧ col1.defaultDeck = col.defaultDeck
      ∧ col1.inserted = col.inserted ++ [claimedRow col ts ctr dn] := by
  obtain ⟨kvv, hkv1⟩ := Option.isSome_iff_exists.mp hkv
  have hid : nt.id = mid := by
    have hp := List.find?_some hb
    simpa using hp
  obtain ⟨w, n1, r, hupd⟩ :=
    update_note_ok p2h fieldsCheck
      ((add_db_note col ctr dn.guid mid (ts / 1000000000) (-1) dn.tags
        (dn.fields.map (fun kv => kv.2)) kvv.2 0 0 "").2)
      dn nt nt hname.symm
  have hrow : (add_db_note col ctr dn.guid mid (ts / 1000000000) (-1) dn.tags
      (dn.fields.map (fun kv => kv.2)) kvv.2 0 0 "").1.inserted
      = col.inserted ++ [claimedRow col ts ctr dn] := by
    unfold add_db_note claimedRow
    simp [hm, hb, hid, hkv1]
  unfold push_note finishUpdate
  simp only [hm, hb, hg, hkv1]
  simp only [show modelById (add_db_note col ctr dn.guid mid (ts / 1000000000) (-1)
      dn.tags (dn.fields.map (fun kv => kv.2)) kvv.2 0 0 "").1
      (add_db_note col ctr dn.guid mid (ts / 1000000000) (-1) dn.tags
        (dn.fields.map (fun kv => kv.2)) kvv.2 0 0 "").2.mid = some nt from hb,
    hupd]
  refine ⟨_, w, rfl, rfl, rfl, ?_⟩
  simpa using hrow

/-- C5: for every pushed note whose GUID is not already present in the
collection (and whose notetype and sort field resolve), the upsert loop
hands one SQL INSERT row per note to the external note importer, in
order: starting the nid counter at the push timestamp in milliseconds,
the k-th new note's row takes nid = ts_ms + k (a monotonically
increasing counter), with `mod` the push timestamp in seconds,
`usn = -1`, the field values joined by `\x1f`, the tags space-joined
padded with one leading and one trailing space, `sfld` the value of the
notetype's sort field, `csum = 0`, `flags = 0`, and empty `data`.  Each
inserted note is afterwards run unconditionally through `update_note`
(source line 717), which rewrites its fields through `plain_to_html`,
re-flushes it, and may remove it when unhealthy — those effects land in
the `notes` state, while the insert trace records exactly the claimed
rows. -/
theorem c5_pushNotes_new_rows (p2h : String → String)
    (fieldsCheck : NoteE → Nat) (ts : Nat)
    (guids : List (String × NoteMetadata)) (col : ColE)
    (dns : List DeckNote)
    (hnew : ∀ dn ∈ dns, guids.find? (fun p => p.1 = dn.guid) = none)
    (hlook : ∀ dn ∈ dns, ∃ mid nt, modelIdForName col dn.model = some mid
      ∧ modelById col mid = some nt ∧ nt.name = dn.model
      ∧ (dn.fields.find? (fun kv => kv.1 = nt.sortf.name)).isSome) :
    ∃ col1, pushNotesAll p2h fieldsCheck ts guids col dns = .ok col1
      ∧ col1.models = col.models
      ∧ col1.inserted = col.inserted
          ++ (List.enumFrom (ts / 1000000) dns).map
              (fun p => claimedRow col ts p.1 p.2) := by
  unfold pushNotesAll
  suffices hgen : ∀ (l : List DeckNote) (c0 : ColE) (c : Nat),
      c0.models = col.models →
      (∀ dn ∈ l, guids.find? (fun p => p.1 = dn.guid) = none) →
      (∀ dn ∈ l, ∃ mid nt, modelIdForName col dn.model = some mid
        ∧ modelById col mid = some nt ∧ nt.name = dn.model
        ∧ (dn.fields.find? (fun kv => kv.1 = nt.sortf.name)).isSome) →
      ∃ col1, pushNotes p2h fieldsCheck ts guids c0 c l = .ok col1
        ∧ col1.models = col.models
        ∧ col1.inserted = c0.inserted
            ++ (List.enumFrom c l).map (fun p => claimedRow col ts p.1 p.2) by
    exact hgen dns col (ts / 1000000) rfl hnew hlook
  intro l
  induction l with
  | nil =>
    intro c0 c hmodels _ _
    exact ⟨c0, rfl, hmodels, by simp [List.enumFrom]⟩
  | cons dn dns ih =>
    intro c0 c hmodels hnew1 hlook1
    obtain ⟨mid, nt, hm, hb, hname, hkv⟩ := hlook1 dn (by simp)
    have hm0 : modelIdForName c0 dn.model = some mid := by
      unfold modelIdForName
      rw [hmodels]
      exact hm
    have hb0 : modelById c0 mid = some nt := by
      unfold modelById
      rw [hmodels]
      exact hb
    obtain ⟨col1, ws, hstep, hmodels1, -, hins1⟩ :=
      push_note_new_inserted p2h fieldsCheck ts guids c0 c dn mid nt
        (hnew1 dn (by simp)) hm0 hb0 hname hkv
    obtain ⟨col2, hrun, hmodels2, hins2⟩ :=
      ih col1 (c + 1) (by rw [hmodels1, hmodels])
        (fun d hd => hnew1 d (by simp [hd]))
        (fun d hd => hlook1 d (by simp [hd]))
    refine ⟨col2, ?_, hmodels2, ?_⟩
    · unfold pushNotes
      rw [hstep]
      exact hrun
    · rw [hins2, hins1]
      have hcr : claimedRow c0 ts c dn = claimedRow col ts c dn := by
        unfold claimedRow modelIdForName modelById
        rw [hmodels]
      simp [List.enumFrom, hcr, List.append_assoc]

/-- Witness for C5: pushing one brand-new note into a collection with one
notetype; the insert trace gains exactly the claimed row. -/
theorem c5_witness :
    ∃ col1, pushNotesAll id (fun _ => 0) 2000000000 []
        ⟨[], [], [⟨7, "Basic", [⟨"Front", 0⟩, ⟨"Back", 1⟩], ⟨"Front", 0⟩⟩], "Default"⟩
        [⟨"t", "g", "Deck", "Basic", ["t1", "t2"], [("Front", "f"), ("Back", "b")]⟩]
      = .ok col1
      ∧ col1.models
          = (⟨[], [], [⟨7, "Basic", [⟨"Front", 0⟩, ⟨"Back", 1⟩], ⟨"Front", 0⟩⟩],
              "Default"⟩ : ColE).models
      ∧ col1.inserted
          = (⟨[], [], [⟨7, "Basic", [⟨"Front", 0⟩, ⟨"Back", 1⟩], ⟨"Front", 0⟩⟩],
              "Default"⟩ : ColE).inserted
            ++ (List.enumFrom (2000000000 / 1000000)
                  [⟨"t", "g", "Deck", "Basic", ["t1", "t2"],
                    [("Front", "f"), ("Back", "b")]⟩]).map
                (fun p => claimedRow
                  ⟨[], [], [⟨7, "Basic", [⟨"Front", 0⟩, ⟨"Back", 1⟩], ⟨"Front", 0⟩⟩],
                    "Default"⟩
                  2000000000 p.1 p.2) :=
  c5_pushNotes_new_rows id (fun _ => 0) 2000000000 []
    ⟨[], [], [⟨7, "Basic", [⟨"Front", 0⟩, ⟨"Back", 1⟩], ⟨"Front", 0⟩⟩], "Default"⟩
    [⟨"t", "g", "Deck", "Basic", ["t1", "t2"], [("Front", "f"), ("Back", "b")]⟩]
    (by intro dn hdn; rfl)
    (by
      intro dn hdn
      simp only [List.mem_singleton] at hdn
      subst hdn
      exact ⟨7, ⟨7, "Basic", [⟨"Front", 0⟩, ⟨"Back", 1⟩], ⟨"Front", 0⟩⟩,
        rfl, rfl, rfl, rfl⟩)

/-- C10 counterexample: updating a note to a *different* notetype with a
mismatched field count returns the validation warnings, but the note's
field contents are **not** left unchanged: the notetype change already
cleared all fields (via `models.change` with an all-`None` field map)
before validation ran. -/
theorem c10_counterexample :
    update_note id (fun _ => 0)
        ⟨1, [], "D", 1, [("Front", "x"), ("Back", "y")]⟩
        ⟨"t", "g", "D2", "Other", ["tag"], [("Front", "x"), ("Back", "y")]⟩
        ⟨1, "Basic", [⟨"Front", 0⟩, ⟨"Back", 1⟩], ⟨"Front", 0⟩⟩
        ⟨2, "Other", [⟨"A", 0⟩], ⟨"A", 0⟩⟩
      = .ok ([.wrongFieldCount, .inconsistentFieldNames "A" "Front"],
          ⟨1, ["tag"], "D2", 2, [("A", "")]⟩, false)
    ∧ (⟨1, ["tag"], "D2", 2, [("A", "")]⟩ : NoteE).fields
      ≠ (⟨1, [], "D", 1, [("Front", "x"), ("Back", "y")]⟩ : NoteE).fields := by
  refine ⟨rfl, by decide⟩

/-- C10 (amended): if `validate_decknote_fields` yields any warning for
the note being updated, `update_note` returns exactly those warnings
without running the field-writing step or the health check (the note is
not removed); at that point the tags, deck, and notetype have already
been updated, and the field contents are unchanged **provided the
notetype did not change** — when it did change, the fields were already
cleared by the notetype change itself. -/
theorem c10_update_note_warnings (p2h : String → String)
    (fieldsCheck : NoteE → Nat) (note : NoteE) (dn : DeckNote)
    (old_nt new_nt : NotetypeE)
    (hname : dn.model = new_nt.name)
    (hw : validate_decknote_fields new_nt dn ≠ []) :
    update_note p2h fieldsCheck note dn old_nt new_nt
      = .ok (validate_decknote_fields new_nt dn,
          { id := note.id, tags := dn.tags, deck := dn.deck,
            mid := if old_nt.id ≠ new_nt.id then new_nt.id else note.mid,
            fields := if old_nt.id ≠ new_nt.id
              then new_nt.flds.map (fun f => (f.name, ""))
              else note.fields },
          false) := by
  have hlen : (validate_decknote_fields new_nt dn).length > 0 := by
    cases hv : validate_decknote_fields new_nt dn with
    | nil => exact absurd hv hw
    | cons a l => simp
  simp only [update_note]
  rw [if_neg (by simp [hname])]
  rw [if_pos hlen]
  by_cases hid : old_nt.id ≠ new_nt.id
  · simp [hid]
  · simp [hid]

/-- Witness for C10: a concrete warning-producing update with a notetype
change. -/
theorem c10_witness :
    update_note id (fun _ => 0)
        ⟨1, [], "D", 1, [("Front", "x"), ("Back", "y")]⟩
        ⟨"t", "g", "D2", "Other", ["tag"], [("Front", "x"), ("Back", "y")]⟩
        ⟨1, "Basic", [⟨"Front", 0⟩, ⟨"Back", 1⟩], ⟨"Front", 0⟩⟩
        ⟨2, "Other", [⟨"A", 0⟩], ⟨"A", 0⟩⟩
      = .ok (validate_decknote_fields ⟨2, "Other", [⟨"A", 0⟩], ⟨"A", 0⟩⟩
            ⟨"t", "g", "D2", "Other", ["tag"], [("Front", "x"), ("Back", "y")]⟩,
          { id := 1, tags := ["tag"], deck := "D2",
            mid := if (1 : Nat) ≠ 2 then 2 else 1,
            fields := if (1 : Nat) ≠ 2
              then [(⟨"A", 0⟩ : FieldDef)].map (fun f => (f.name, ""))
              else [("Front", "x"), ("Back", "y")] },
          false) := by
  exact c10_update_note_warnings id (fun _ => 0)
    ⟨1, [], "D", 1, [("Front", "x"), ("Back", "y")]⟩
    ⟨"t", "g", "D2", "Other", ["tag"], [("Front", "x"), ("Back", "y")]⟩
    ⟨1, "Basic", [⟨"Front", 0⟩, ⟨"Back", 1⟩], ⟨"Front", 0⟩⟩
    ⟨2, "Other", [⟨"A", 0⟩], ⟨"A", 0⟩⟩ rfl (by decide)
